import Mathlib

/-!
Verification of the finance-agent backend core: the portfolio ledger
(`app/agent/tools/portfolio_manager.py`), the finance calculator
(`app/agent/tools/calculator.py`) and the exporter
(`app/agent/tools/exporter.py`), shallowly embedded over exact rational
arithmetic.  Monetary values travel through Python `Decimal(str(x))`
conversions; here they are modelled as `ℚ`.  Python's
`Decimal.quantize(Decimal("0.01"), rounding=ROUND_HALF_UP)` is `round2`
(round to 2 decimals, ties away from zero) and the default-context
`quantize(Decimal("0.01"))` used by the exporter is `roundHalfEven2`
(round to 2 decimals, ties to even).  `ValueError` raising code is
embedded as `Except String`; the flat-file memory
(`app/agent/memory.py`) is a function from user id to stored portfolio.
-/

namespace FinanceAgent

/-- Python `Decimal(str(q)).quantize(Decimal("0.01"), rounding=ROUND_HALF_UP)`:
round to two decimal places, ties away from zero.  (`Rat.floor` is used
rather than `⌊·⌋` so that the function evaluates by kernel reduction; the two
agree, see `rat_floor_eq_floor`.) -/
def round2 (q : ℚ) : ℚ :=
  if 0 ≤ q then ((q * 100 + 1/2).floor : ℚ) / 100
  else -((((-q) * 100 + 1/2).floor : ℚ) / 100)

/-- Python `Decimal(str(q)).quantize(Decimal("0.01"))` with the default
context rounding `ROUND_HALF_EVEN`: round to two decimal places, ties to the
even hundredth. -/
def roundHalfEven2 (q : ℚ) : ℚ :=
  let f : ℤ := (q * 100).floor
  let r : ℚ := q * 100 - (f : ℚ)
  let n : ℤ :=
    if r < 1/2 then f
    else if 1/2 < r then f + 1
    else if f % 2 = 0 then f else f + 1
  (n : ℚ) / 100

/-- A value already expressed in whole hundredths (2 decimal places). -/
def TwoDecimal (q : ℚ) : Prop := ∃ n : ℤ, q = (n : ℚ) / 100

/-! ## Data model

A portfolio entry, as stored by `PortfolioManager.add_asset`:
`{"quantity": ..., "purchase_prices": [{"quantity": ..., "price": ...}, ...],
"current_price": ...}`. -/

/-- One element of a holding's `purchase_prices` list. -/
structure PurchaseLot where
  quantity : ℚ
  price : ℚ
deriving DecidableEq, Repr

/-- One asset entry of the portfolio dictionary. -/
structure Holding where
  quantity : ℚ
  purchase_prices : List PurchaseLot
  current_price : Option ℚ
deriving DecidableEq, Repr

/-- The portfolio dictionary: insertion-ordered map from asset name to
holding (Python dicts preserve insertion order). -/
abbrev Portfolio := List (String × Holding)

/-- `asset_name in portfolio` / `portfolio[asset_name]` lookup. -/
def Portfolio.find : Portfolio → String → Option Holding
  | [], _ => none
  | (a, h) :: rest, name => if a = name then some h else Portfolio.find rest name

/-- In-place mutation of the entry for `name`, other bindings and their order
untouched (keys are unique in a dict, so rewriting every matching binding is
the same as mutating the one entry). -/
def Portfolio.modify : Portfolio → String → (Holding → Holding) → Portfolio
  | [], _, _ => []
  | (k, v) :: rest, name, f =>
      if k = name then (k, f v) :: Portfolio.modify rest name f
      else (k, v) :: Portfolio.modify rest name f

/-- `del portfolio[asset_name]`. -/
def Portfolio.eraseKey : Portfolio → String → Portfolio
  | [], _ => []
  | (k, v) :: rest, name =>
      if k = name then Portfolio.eraseKey rest name
      else (k, v) :: Portfolio.eraseKey rest name

/-! ## Storage adapter (`app/agent/memory.py`)

`load_memory`/`save_memory` keep one record per user in a JSON file; the
ledger only reads and writes the `"portfolio"` key of its user's record, so
the store is modelled as a map from user id to portfolio, absent users
mapping to the empty portfolio. -/

abbrev Store := String → Portfolio

def emptyStore : Store := fun _ => []

/-- `save_memory(user_id, memory)` restricted to the `"portfolio"` key. -/
def saveMemory (s : Store) (u : String) (p : Portfolio) : Store :=
  fun v => if v = u then p else s v

/-! ## Finance calculator (`app/agent/tools/calculator.py`) -/

namespace CalculatorTool

/-- `CalculatorTool.calculate_roi`. -/
def calculate_roi (initial_investment final_value : ℚ) : Except String ℚ :=
  if initial_investment ≤ 0 then .error "Initial investment must be positive"
  else if final_value < 0 then .error "Final value cannot be negative"
  else .ok (round2 ((final_value - initial_investment) / initial_investment * 100))

/-- `CalculatorTool.compound_interest`. -/
def compound_interest (principal rate : ℚ) (years n : ℤ) : Except String ℚ :=
  if principal ≤ 0 then .error "Principal must be positive"
  else if rate < 0 then .error "Interest rate cannot be negative"
  else if years < 0 then .error "Years cannot be negative"
  else if n ≤ 0 then .error "Compounding frequency must be positive"
  else if years = 0 then .ok (round2 principal)
  else .ok (round2 (principal * (1 + rate / (n : ℚ)) ^ (n * years).toNat))

/-- `CalculatorTool.investment_simulation`: the result dictionary, with
insertion order, as the list of its (year, value) pairs. -/
def investment_simulation (principal rate : ℚ) (years n : ℤ) :
    Except String (List (ℤ × ℚ)) :=
  if principal ≤ 0 then .error "Principal must be positive"
  else if rate < 0 then .error "Interest rate cannot be negative"
  else if years < 0 then .error "Years cannot be negative"
  else if n ≤ 0 then .error "Compounding frequency must be positive"
  else .ok ((List.range (years.toNat + 1)).map (fun (year : ℕ) =>
    (((year : ℕ) : ℤ),
      round2 (if year = 0 then principal
              else principal * (1 + rate / (n : ℚ)) ^ (n * ((year : ℕ) : ℤ)).toNat))))

end CalculatorTool

/-! ## Ledger engine (`app/agent/tools/portfolio_manager.py`)

Each operation loads the caller's memory, mutates the portfolio mapping, and
persists it; success returns the new store together with the portfolio value
the Python function returns. -/

namespace PortfolioManager

/-- The pure portfolio mutation inside `add_asset` (after validation): append
a lot and bump the quantity when the asset exists, else create a fresh entry.
Note the appended lot keeps the raw `quantity`; only its `price` and the
holding-level quantity are rounded. -/
def add_asset_step (asset_name : String) (quantity purchase_price : ℚ)
    (portfolio : Portfolio) : Portfolio :=
  match portfolio.find asset_name with
  | some _ =>
      portfolio.modify asset_name (fun h =>
        { h with
          quantity := h.quantity + round2 quantity
          purchase_prices :=
            h.purchase_prices ++ [⟨quantity, round2 purchase_price⟩] })
  | none =>
      portfolio ++ [(asset_name,
        ⟨round2 quantity, [⟨quantity, round2 purchase_price⟩], none⟩)]

/-- `PortfolioManager.add_asset`. -/
def add_asset (user_id asset_name : String) (quantity purchase_price : ℚ)
    (s : Store) : Except String (Store × Portfolio) :=
  if user_id = "" then .error "User ID must be a non-empty string"
  else if asset_name = "" then .error "Asset name must be a non-empty string"
  else if quantity ≤ 0 then .error "Quantity must be positive"
  else if purchase_price < 0 then .error "Purchase price cannot be negative"
  else
    .ok (saveMemory s user_id
          (add_asset_step asset_name quantity purchase_price (s user_id)),
        add_asset_step asset_name quantity purchase_price (s user_id))

/-- `PortfolioManager.remove_asset`: deletes and persists when present, pure
no-op (no save) when absent. -/
def remove_asset (user_id asset_name : String) (s : Store) :
    Except String (Store × Portfolio) :=
  if user_id = "" then .error "User ID must be a non-empty string"
  else if asset_name = "" then .error "Asset name must be a non-empty string"
  else
    match (s user_id).find asset_name with
    | some _ =>
        .ok (saveMemory s user_id ((s user_id).eraseKey asset_name),
          (s user_id).eraseKey asset_name)
    | none => .ok (s, s user_id)

/-- `PortfolioManager.get_portfolio`. -/
def get_portfolio (user_id : String) (s : Store) : Except String Portfolio :=
  if user_id = "" then .error "User ID must be a non-empty string"
  else .ok (s user_id)

/-- `PortfolioManager.update_current_price`: sets the rounded price and
persists when the asset exists, no-op when absent. -/
def update_current_price (user_id asset_name : String) (current_price : ℚ)
    (s : Store) : Except String (Store × Portfolio) :=
  if user_id = "" then .error "User ID must be a non-empty string"
  else if asset_name = "" then .error "Asset name must be a non-empty string"
  else if current_price < 0 then .error "Current price cannot be negative"
  else
    match (s user_id).find asset_name with
    | some _ =>
        .ok (saveMemory s user_id ((s user_id).modify asset_name
            (fun h => { h with current_price := some (round2 current_price) })),
          (s user_id).modify asset_name
            (fun h => { h with current_price := some (round2 current_price) }))
    | none => .ok (s, s user_id)

end PortfolioManager

/-! ## Exporter (`app/agent/tools/exporter.py`)

Both exports build, per asset, a row {Asset, Quantity, Price, Value} where
the price is `current_price` when not `None`, else
`purchase_prices[-1]["price"]`, and the value is the product quantized with
the Decimal context default (`ROUND_HALF_EVEN`).  File writing is out of
scope; the embedding returns the row data, `none` standing for the `None`
returned on an empty portfolio, and the error case for the raised
`ValueError` (an empty `purchase_prices` with no current price would raise
`IndexError`, embedded as an error as well). -/

namespace ExporterTool

/-- The price picked for one holding by both export paths. -/
def valuationPrice (h : Holding) : Option ℚ :=
  match h.current_price with
  | some cp => some cp
  | none => (h.purchase_prices.getLast?).map PurchaseLot.price

/-- One row of the exported table. -/
structure CsvRow where
  asset : String
  quantity : ℚ
  price : ℚ
  value : ℚ
deriving DecidableEq, Repr

/-- The row built for one asset, `none` when no price is available
(`IndexError` in Python). -/
def exportRow (asset_name : String) (h : Holding) : Option CsvRow :=
  (valuationPrice h).map (fun price =>
    ⟨asset_name, h.quantity, price, roundHalfEven2 (h.quantity * price)⟩)

/-- `ExporterTool.export_portfolio_csv`, up to file writing: the written row
set, `ok none` when the portfolio is empty. -/
def export_portfolio_csv (user_id : String) (portfolio : Portfolio) :
    Except String (Option (List CsvRow)) :=
  if user_id = "" then .error "User ID must be a non-empty string"
  else if portfolio.isEmpty then .ok none
  else
    match portfolio.mapM (fun ah => exportRow ah.1 ah.2) with
    | some rows => .ok (some rows)
    | none => .error "IndexError"

/-- `ExporterTool.export_portfolio_pdf`, up to file writing: the table rows
together with the total row's value, `ok none` when the portfolio is
empty. -/
def export_portfolio_pdf (user_id : String) (portfolio : Portfolio) :
    Except String (Option (List CsvRow × ℚ)) :=
  if user_id = "" then .error "User ID must be a non-empty string"
  else if portfolio.isEmpty then .ok none
  else
    match portfolio.mapM (fun ah => exportRow ah.1 ah.2) with
    | some rows => .ok (some (rows, (rows.map CsvRow.value).sum))
    | none => .error "IndexError"

end ExporterTool

/-! ## Report aggregator (portfolio ROI)

`app/agent/core.py` line 120 calls
`portfolio_manager.calculate_portfolio_roi(user_id, calculator)`, but no such
method is defined anywhere under the source tree; the operation exists only
in the spec (§4.3).  It is therefore modelled from the spec. -/

namespace Aggregator

/-- Modelled from the spec: `assetValue(holding)` of §4.3 — the Report
Aggregator is missing from the source (`calculate_portfolio_roi` is called in
`core.py` but never defined); per the spec, the holding's quantity times its
valuation price, rounded to 2 decimals (the calculator-wide half-up
rounding), `none` when no valuation price exists. -/
def assetValue (h : Holding) : Option ℚ :=
  (ExporterTool.valuationPrice h).map (fun price => round2 (h.quantity * price))

/-- Modelled from the spec: the initial investment of `portfolioROI` of §4.3 —
the sum over all lots of `lot.quantity * lot.price`. -/
def initialInvestment (p : Portfolio) : ℚ :=
  (p.map (fun ah =>
    (ah.2.purchase_prices.map (fun l => l.quantity * l.price)).sum)).sum

/-- Modelled from the spec: `portfolioROI(portfolio, calculator)` of §4.3 —
the missing `calculate_portfolio_roi`: final value is the sum of the asset
values, and the numeric computation is delegated to `roi`
(`calculate_roi`), whose validation rejects a non-positive initial
investment. -/
def calculate_portfolio_roi (p : Portfolio) : Except String ℚ :=
  match p.mapM (fun ah => assetValue ah.2) with
  | none => .error "IndexError"
  | some vals => CalculatorTool.calculate_roi (initialInvestment p) vals.sum

end Aggregator

/-! ## Auxiliary predicates -/

/-- Whether a ledger / calculator call succeeded (no `ValueError`). -/
def isOk {α : Type _} : Except String α → Bool
  | .ok _ => true
  | .error _ => false

/-- The literal §3 storage invariant claimed by the spec: every monetary and
quantity field of a holding — its quantity, its current price when set, and
each lot's quantity and price — is a 2-decimal value. -/
def Holding.FullyRounded (h : Holding) : Prop :=
  TwoDecimal h.quantity ∧
  (∀ cp, h.current_price = some cp → TwoDecimal cp) ∧
  ∀ l ∈ h.purchase_prices, TwoDecimal l.quantity ∧ TwoDecimal l.price

def Portfolio.FullyRounded (p : Portfolio) : Prop :=
  ∀ ah ∈ p, ah.2.FullyRounded

/-- The storage invariant the ledger actually maintains: holding quantity,
current price and lot prices are 2-decimal values; lot quantities are stored
as given. -/
def Holding.StoredRounded (h : Holding) : Prop :=
  TwoDecimal h.quantity ∧
  (∀ cp, h.current_price = some cp → TwoDecimal cp) ∧
  ∀ l ∈ h.purchase_prices, TwoDecimal l.price

def Portfolio.StoredRounded (p : Portfolio) : Prop :=
  ∀ ah ∈ p, ah.2.StoredRounded

/-! ## Basic lemmas about the rounding functions -/

/-- Batteries' executable `Rat.floor` agrees with the mathematical floor. -/
@[simp] theorem rat_floor_eq (q : ℚ) : q.floor = ⌊q⌋ := by
  rw [Rat.floor_def', ← Rat.floor_def]

theorem round2_twoDecimal (q : ℚ) : TwoDecimal (round2 q) := by
  unfold round2
  split
  · exact ⟨(q * 100 + 1/2).floor, rfl⟩
  · exact ⟨-((-q) * 100 + 1/2).floor, by push_cast [rat_floor_eq]; ring⟩

theorem round2_eq_self {q : ℚ} (h : TwoDecimal q) : round2 q = q := by
  obtain ⟨n, rfl⟩ := h
  unfold round2
  have key : ∀ m : ℤ, (((m : ℚ) / 100) * 100 + 1/2).floor = m := by
    intro m
    rw [rat_floor_eq]
    have : ((m : ℚ) / 100) * 100 + 1/2 = (m : ℚ) + 1/2 := by ring
    rw [this, Int.floor_int_add]
    norm_num
  split
  · rw [key]
  · have : -((n : ℚ) / 100) = ((-n : ℤ) : ℚ) / 100 := by push_cast; ring
    rw [this, key]
    push_cast
    ring

theorem twoDecimal_iff_round2 (q : ℚ) : TwoDecimal q ↔ round2 q = q := by
  constructor
  · exact round2_eq_self
  · intro h
    rw [← h]
    exact round2_twoDecimal q

theorem TwoDecimal.add {a b : ℚ} (ha : TwoDecimal a) (hb : TwoDecimal b) :
    TwoDecimal (a + b) := by
  obtain ⟨m, rfl⟩ := ha
  obtain ⟨n, rfl⟩ := hb
  exact ⟨m + n, by push_cast; ring⟩

theorem roundHalfEven2_twoDecimal (q : ℚ) : TwoDecimal (roundHalfEven2 q) :=
  ⟨_, rfl⟩

/-! ## Basic lemmas about portfolio operations -/

theorem Portfolio.find_modify_self {p : Portfolio} {name : String} {h : Holding}
    (hf : p.find name = some h) (f : Holding → Holding) :
    (p.modify name f).find name = some (f h) := by
  induction p with
  | nil => simp [Portfolio.find] at hf
  | cons ah rest ih =>
      obtain ⟨k, v⟩ := ah
      by_cases hn : k = name
      · simp only [Portfolio.find, if_pos hn, Option.some.injEq] at hf
        simp [Portfolio.modify, Portfolio.find, if_pos hn, hf]
      · simp only [Portfolio.find, if_neg hn] at hf
        simp [Portfolio.modify, Portfolio.find, if_neg hn, ih hf]

theorem Portfolio.find_modify_ne (p : Portfolio) (name b : String)
    (f : Holding → Holding) (hb : b ≠ name) :
    (p.modify name f).find b = p.find b := by
  induction p with
  | nil => simp [Portfolio.modify]
  | cons ah rest ih =>
      obtain ⟨k, v⟩ := ah
      by_cases hn : k = name
      · have hkb : ¬ k = b := by rw [hn]; exact fun hc => hb hc.symm
        simp [Portfolio.modify, Portfolio.find, if_pos hn, if_neg hkb, ih]
      · by_cases hkb : k = b
        · simp [Portfolio.modify, Portfolio.find, if_neg hn, if_pos hkb]
        · simp [Portfolio.modify, Portfolio.find, if_neg hn, if_neg hkb, ih]

theorem Portfolio.modify_map_fst (p : Portfolio) (name : String)
    (f : Holding → Holding) :
    (p.modify name f).map Prod.fst = p.map Prod.fst := by
  induction p with
  | nil => rfl
  | cons ah rest ih =>
      obtain ⟨k, v⟩ := ah
      by_cases hn : k = name <;>
        simp [Portfolio.modify, hn, ih]

theorem Portfolio.find_eraseKey_self (p : Portfolio) (name : String) :
    (p.eraseKey name).find name = none := by
  induction p with
  | nil => rfl
  | cons ah rest ih =>
      obtain ⟨k, v⟩ := ah
      by_cases hn : k = name
      · simpa [Portfolio.eraseKey, if_pos hn] using ih
      · simp [Portfolio.eraseKey, Portfolio.find, if_neg hn, ih]

theorem Portfolio.find_append (p : Portfolio) (entry : String × Holding)
    (b : String) : (p ++ [entry]).find b =
      ((p.find b).or (if entry.1 = b then some entry.2 else none)) := by
  induction p with
  | nil => simp [Portfolio.find]
  | cons ah rest ih =>
      obtain ⟨k, v⟩ := ah
      by_cases hn : k = b <;> simp [Portfolio.find, hn, ih]

theorem saveMemory_same (s : Store) (u : String) (p : Portfolio) :
    saveMemory s u p u = p := by simp [saveMemory]

theorem saveMemory_other (s : Store) (u v : String) (p : Portfolio)
    (h : v ≠ u) : saveMemory s u p v = s v := by simp [saveMemory, h]

/-! ## Preservation lemmas for the storage-rounding invariant -/

theorem Holding.StoredRounded.add_lot {h : Holding} (hh : h.StoredRounded)
    (q price : ℚ) :
    Holding.StoredRounded ⟨h.quantity + round2 q,
      h.purchase_prices ++ [⟨q, round2 price⟩], h.current_price⟩ := by
  obtain ⟨h1, h2, h3⟩ := hh
  refine ⟨h1.add (round2_twoDecimal q), h2, ?_⟩
  intro l hl
  rcases List.mem_append.mp hl with hl | hl
  · exact h3 l hl
  · simp only [List.mem_singleton] at hl
    subst hl
    exact round2_twoDecimal price

theorem Portfolio.StoredRounded.modify {name : String} {f : Holding → Holding}
    (hf : ∀ h, Holding.StoredRounded h → Holding.StoredRounded (f h)) :
    ∀ {p : Portfolio}, p.StoredRounded → (p.modify name f).StoredRounded := by
  intro p
  induction p with
  | nil => intro _ ah hm; cases hm
  | cons kv rest ih =>
      intro hp ah hm
      obtain ⟨k, v⟩ := kv
      rw [Portfolio.modify] at hm
      by_cases hn : k = name
      · rw [if_pos hn] at hm
        rcases List.mem_cons.mp hm with rfl | hm
        · exact hf v (hp (k, v) (List.mem_cons_self _ _))
        · exact ih (fun x hx => hp x (List.mem_cons_of_mem _ hx)) _ hm
      · rw [if_neg hn] at hm
        rcases List.mem_cons.mp hm with rfl | hm
        · exact hp (k, v) (List.mem_cons_self _ _)
        · exact ih (fun x hx => hp x (List.mem_cons_of_mem _ hx)) _ hm

theorem Portfolio.mem_eraseKey {name : String} :
    ∀ {p : Portfolio} {ah}, ah ∈ p.eraseKey name → ah ∈ p := by
  intro p
  induction p with
  | nil => intro ah hm; cases hm
  | cons kv rest ih =>
      intro ah hm
      obtain ⟨k, v⟩ := kv
      rw [Portfolio.eraseKey] at hm
      by_cases hn : k = name
      · rw [if_pos hn] at hm
        exact List.mem_cons_of_mem _ (ih hm)
      · rw [if_neg hn] at hm
        rcases List.mem_cons.mp hm with rfl | hm
        · exact List.mem_cons_self _ _
        · exact List.mem_cons_of_mem _ (ih hm)

theorem Portfolio.StoredRounded.eraseKey {p : Portfolio} {name : String}
    (hp : p.StoredRounded) : (p.eraseKey name).StoredRounded :=
  fun ah hm => hp ah (Portfolio.mem_eraseKey hm)

theorem add_asset_step_stored {a : String} {q price : ℚ} {p : Portfolio}
    (hp : p.StoredRounded) :
    (PortfolioManager.add_asset_step a q price p).StoredRounded := by
  rw [PortfolioManager.add_asset_step]
  cases hfind : p.find a with
  | some h₀ =>
      exact Portfolio.StoredRounded.modify
        (fun h hh => hh.add_lot q price) hp
  | none =>
      intro ah hm
      rcases List.mem_append.mp hm with hm | hm
      · exact hp ah hm
      · simp only [List.mem_singleton] at hm
        subst hm
        refine ⟨round2_twoDecimal q, ?_, ?_⟩
        · intro cp hcp
          cases hcp
        · intro l hl
          simp only [List.mem_singleton] at hl
          subst hl
          exact round2_twoDecimal price

/-! ## Claim theorems -/

/-- C2 counterexample: `addAsset("u", "BTC", 2.005, 30000)` persists a lot
whose quantity is the raw 2.005, which is not a 2-decimal value, so the
claimed full-rounding invariant fails. -/
theorem stored_rounding_cex :
    (PortfolioManager.add_asset "u" "BTC" (401/200) 30000
        emptyStore).toOption.map Prod.snd =
      some [("BTC", ⟨round2 (401/200), [⟨401/200, round2 30000⟩], none⟩)] ∧
    ¬ Portfolio.FullyRounded
        [("BTC", ⟨round2 (401/200), [⟨401/200, round2 30000⟩], none⟩)] := by
  constructor
  · rw [PortfolioManager.add_asset, if_neg (by decide), if_neg (by decide),
      if_neg (by norm_num), if_neg (by norm_num)]
    rfl
  · intro hfr
    obtain ⟨-, -, hlots⟩ := hfr _ (List.mem_cons_self _ _)
    have hlot := hlots ⟨401/200, round2 30000⟩ (List.mem_cons_self _ _)
    have h2d := round2_eq_self hlot.1
    rw [show round2 (401/200 : ℚ) = 201/100 by norm_num [round2]] at h2d
    norm_num at h2d

/-- C2 (amended): after every Ledger Engine operation (addAsset, removeAsset,
updateCurrentPrice), every holding-level quantity, every set current_price
and every lot price stored in the persisted portfolio is rounded to 2
decimal places with round-half-up semantics (provided the prior portfolio
was); lot quantities, however, are persisted unrounded, as given. -/
theorem stored_rounding_inv (u a : String) (q price cp : ℚ) (s : Store)
    (hs : (s u).StoredRounded) :
    (∀ s' p', PortfolioManager.add_asset u a q price s = .ok (s', p') →
      (s' u).StoredRounded ∧ p'.StoredRounded) ∧
    (∀ s' p', PortfolioManager.remove_asset u a s = .ok (s', p') →
      (s' u).StoredRounded ∧ p'.StoredRounded) ∧
    (∀ s' p', PortfolioManager.update_current_price u a cp s = .ok (s', p') →
      (s' u).StoredRounded ∧ p'.StoredRounded) := by
  refine ⟨?_, ?_, ?_⟩
  · intro s' p' hrun
    rw [PortfolioManager.add_asset] at hrun
    split_ifs at hrun
    simp only [Except.ok.injEq, Prod.mk.injEq] at hrun
    obtain ⟨rfl, rfl⟩ := hrun
    rw [saveMemory_same]
    exact ⟨add_asset_step_stored hs, add_asset_step_stored hs⟩
  · intro s' p' hrun
    rw [PortfolioManager.remove_asset] at hrun
    split_ifs at hrun
    cases hfind : (s u).find a with
    | some h₀ =>
        rw [hfind] at hrun
        simp only [Except.ok.injEq, Prod.mk.injEq] at hrun
        obtain ⟨rfl, rfl⟩ := hrun
        rw [saveMemory_same]
        exact ⟨hs.eraseKey, hs.eraseKey⟩
    | none =>
        rw [hfind] at hrun
        simp only [Except.ok.injEq, Prod.mk.injEq] at hrun
        obtain ⟨rfl, rfl⟩ := hrun
        exact ⟨hs, hs⟩
  · intro s' p' hrun
    rw [PortfolioManager.update_current_price] at hrun
    split_ifs at hrun
    cases hfind : (s u).find a with
    | some h₀ =>
        rw [hfind] at hrun
        simp only [Except.ok.injEq, Prod.mk.injEq] at hrun
        obtain ⟨rfl, rfl⟩ := hrun
        rw [saveMemory_same]
        have hmod : ((s u).modify a
            (fun h => { h with current_price := some (round2 cp) })).StoredRounded := by
          refine Portfolio.StoredRounded.modify ?_ hs
          rintro h ⟨h1, -, h3⟩
          refine ⟨h1, ?_, h3⟩
          rintro c hc
          cases hc
          exact round2_twoDecimal cp
        exact ⟨hmod, hmod⟩
    | none =>
        rw [hfind] at hrun
        simp only [Except.ok.injEq, Prod.mk.injEq] at hrun
        obtain ⟨rfl, rfl⟩ := hrun
        exact ⟨hs, hs⟩

/-- Witness for C2 (amended): adding 2 BTC at 30000 to an empty store yields
a stored-rounded portfolio. -/
theorem stored_rounding_inv_witness :
    Portfolio.StoredRounded [("BTC", ⟨round2 2, [⟨2, round2 30000⟩], none⟩)] :=
  ((stored_rounding_inv "u" "BTC" 2 30000 0 emptyStore
      (fun ah hm => absurd hm (List.not_mem_nil ah))).1
    (saveMemory emptyStore "u" [("BTC", ⟨round2 2, [⟨2, round2 30000⟩], none⟩)])
    [("BTC", ⟨round2 2, [⟨2, round2 30000⟩], none⟩)]
    (by rw [PortfolioManager.add_asset, if_neg (by decide), if_neg (by decide),
      if_neg (by norm_num), if_neg (by norm_num)]; rfl)).2

/-- C5: for all initial > 0 and final ≥ 0, `roi(initial, final)` equals
`(final - initial) / initial * 100` rounded half-up to 2 decimals (so
`roi(1000,1200) = 20.0` and `roi(1000,800) = -20.0`), and `roi` raises
`ValidationError` exactly when initial ≤ 0 or final < 0. -/
theorem calculate_roi_spec (initial final : ℚ) :
    (0 < initial → 0 ≤ final →
      CalculatorTool.calculate_roi initial final =
        .ok (round2 ((final - initial) / initial * 100))) ∧
    (isOk (CalculatorTool.calculate_roi initial final) = true ↔
      0 < initial ∧ 0 ≤ final) ∧
    CalculatorTool.calculate_roi 1000 1200 = .ok 20 ∧
    CalculatorTool.calculate_roi 1000 800 = .ok (-20) := by
  refine ⟨?_, ?_, ?_, ?_⟩
  · intro h1 h2
    rw [CalculatorTool.calculate_roi, if_neg (by linarith), if_neg (by linarith)]
  · rw [CalculatorTool.calculate_roi]
    split_ifs with ha hb
    · simp only [isOk, Bool.false_eq_true, false_iff]
      rintro ⟨hc, _⟩
      linarith
    · simp only [isOk, Bool.false_eq_true, false_iff]
      rintro ⟨_, hc⟩
      linarith
    · simp only [isOk, true_iff]
      exact ⟨not_le.mp ha, not_lt.mp hb⟩
  · rw [CalculatorTool.calculate_roi]
    norm_num [round2]
  · rw [CalculatorTool.calculate_roi]
    norm_num [round2]

/-- C4: for every valid input (principal > 0, rate ≥ 0, years ≥ 0,
frequency > 0), `investmentSimulation` returns an ordered mapping with
exactly years+1 entries keyed 0..years, whose year-0 entry is the rounded
principal and whose entry for each year y ≥ 1 equals the compound formula
applied to the original principal for y elapsed years (equal to
`compoundInterest(principal, rate, y, frequency)`), never iteratively
compounded from the previous stored value; e.g.
`investmentSimulation(1000,0.05,2) == {0:1000.0, 1:1050.0, 2:1102.5}`. -/
theorem investment_simulation_spec (principal rate : ℚ) (years n : ℤ)
    (h1 : 0 < principal) (h2 : 0 ≤ rate) (h3 : 0 ≤ years) (h4 : 0 < n) :
    (∃ l, CalculatorTool.investment_simulation principal rate years n = .ok l ∧
      l.length = years.toNat + 1 ∧
      (∀ (i : ℕ) (hi : i < l.length), (l.get ⟨i, hi⟩).1 = (i : ℤ)) ∧
      (∀ (hi : 0 < l.length), (l.get ⟨0, hi⟩).2 = round2 principal) ∧
      (∀ (i : ℕ) (hi : i < l.length), 1 ≤ i →
        CalculatorTool.compound_interest principal rate (i : ℤ) n =
          .ok (l.get ⟨i, hi⟩).2)) ∧
    CalculatorTool.investment_simulation 1000 (5/100) 2 1 =
      .ok [(0, 1000), (1, 1050), (2, 2205/2)] := by
  constructor
  · refine ⟨(List.range (years.toNat + 1)).map (fun (year : ℕ) =>
      (((year : ℕ) : ℤ),
        round2 (if year = 0 then principal
                else principal * (1 + rate / (n : ℚ)) ^ (n * ((year : ℕ) : ℤ)).toNat))),
      ?_, ?_, ?_, ?_, ?_⟩
    · rw [CalculatorTool.investment_simulation, if_neg (not_le.mpr h1),
        if_neg (not_lt.mpr h2), if_neg (not_lt.mpr h3), if_neg (not_le.mpr h4)]
    · simp
    · intro i hi
      simp
    · intro hi
      simp
    · intro i hi hone
      have hne : i ≠ 0 := by omega
      rw [CalculatorTool.compound_interest, if_neg (not_le.mpr h1),
        if_neg (not_lt.mpr h2), if_neg (not_lt.mpr (by exact_mod_cast Nat.zero_le i)),
        if_neg (not_le.mpr h4), if_neg (by exact_mod_cast hne)]
      simp [hne]
  · rw [CalculatorTool.investment_simulation]
    norm_num [List.range_succ]
    have h2' : Int.toNat 2 = 2 := by omega
    rw [h2']
    norm_num [round2, List.range_succ]

/-- C3: `addAsset` with an existing asset appends a new lot and increments the
holding's quantity by the new lot's rounded quantity; with a new asset it
creates a Holding with exactly one lot and `current_price` absent; it raises
`ValidationError` exactly when userId or assetName is empty, quantity is not
strictly positive, or purchasePrice is negative.  In particular
`addAsset("u","BTC",2,30000)` followed by `addAsset("u","BTC",3,31000)` yields
quantity == 5.0 and 2 lots. -/
theorem add_asset_spec (u a : String) (q price : ℚ) (s : Store) :
    (isOk (PortfolioManager.add_asset u a q price s) = true ↔
      u ≠ "" ∧ a ≠ "" ∧ 0 < q ∧ 0 ≤ price) ∧
    (u ≠ "" → a ≠ "" → 0 < q → 0 ≤ price →
      ∃ s' p', PortfolioManager.add_asset u a q price s = .ok (s', p') ∧
        s' u = p' ∧
        (∀ h₀, (s u).find a = some h₀ →
          p'.find a = some ⟨h₀.quantity + round2 q,
            h₀.purchase_prices ++ [⟨q, round2 price⟩], h₀.current_price⟩) ∧
        ((s u).find a = none →
          p'.find a = some ⟨round2 q, [⟨q, round2 price⟩], none⟩)) ∧
    (∀ s₁ p₁ s₂ p₂,
      PortfolioManager.add_asset "u" "BTC" 2 30000 emptyStore = .ok (s₁, p₁) →
      PortfolioManager.add_asset "u" "BTC" 3 31000 s₁ = .ok (s₂, p₂) →
      ∃ h, p₂.find "BTC" = some h ∧ h.quantity = 5 ∧
        h.purchase_prices.length = 2) := by
  refine ⟨?_, ?_, ?_⟩
  · rw [PortfolioManager.add_asset]
    split_ifs with h1 h2 h3 h4
    · simp [isOk, h1]
    · simp [isOk, h2]
    · simp only [isOk, Bool.false_eq_true, false_iff]
      rintro ⟨_, _, hc, _⟩
      exact absurd h3 (not_le.mpr hc)
    · simp only [isOk, Bool.false_eq_true, false_iff]
      rintro ⟨_, _, _, hc⟩
      exact absurd h4 (not_lt.mpr hc)
    · simp only [isOk, true_iff]
      exact ⟨h1, h2, not_le.mp h3, not_lt.mp h4⟩
  · intro h1 h2 h3 h4
    rw [PortfolioManager.add_asset, if_neg h1, if_neg h2,
      if_neg (not_le.mpr h3), if_neg (not_lt.mpr h4)]
    refine ⟨_, _, rfl, saveMemory_same _ _ _, ?_, ?_⟩
    · intro h₀ hfind
      rw [PortfolioManager.add_asset_step, hfind]
      exact Portfolio.find_modify_self hfind _
    · intro hfind
      rw [PortfolioManager.add_asset_step, hfind, Portfolio.find_append, hfind]
      simp
  · intro s₁ p₁ s₂ p₂ h₁ h₂
    rw [PortfolioManager.add_asset, if_neg (by decide), if_neg (by decide),
      if_neg (by norm_num), if_neg (by norm_num)] at h₁ h₂
    simp only [Except.ok.injEq, Prod.mk.injEq] at h₁ h₂
    obtain ⟨rfl, rfl⟩ := h₁
    obtain ⟨rfl, rfl⟩ := h₂
    refine ⟨⟨round2 2 + round2 3, [⟨2, round2 30000⟩, ⟨3, round2 31000⟩], none⟩,
      ?_, ?_, rfl⟩
    · simp [PortfolioManager.add_asset_step, Portfolio.find, Portfolio.modify,
        emptyStore, saveMemory]
    · show round2 2 + round2 3 = 5
      norm_num [round2]

/-- C9: `addAsset` on an already-present asset changes only that holding's
quantity and appends one lot; the holding's `current_price` and all
previously recorded lots are unchanged, and every other asset's holding in
the portfolio is unchanged. -/
theorem add_asset_frame (u a : String) (q price : ℚ) (s : Store) (h₀ : Holding)
    (hu : u ≠ "") (ha : a ≠ "") (hq : 0 < q) (hp : 0 ≤ price)
    (hfind : (s u).find a = some h₀) :
    ∃ s' p', PortfolioManager.add_asset u a q price s = .ok (s', p') ∧
      p'.find a = some ⟨h₀.quantity + round2 q,
        h₀.purchase_prices ++ [⟨q, round2 price⟩], h₀.current_price⟩ ∧
      (∀ b, b ≠ a → p'.find b = (s u).find b) ∧
      p'.map Prod.fst = (s u).map Prod.fst ∧
      (∀ v, v ≠ u → s' v = s v) := by
  rw [PortfolioManager.add_asset, if_neg hu, if_neg ha,
    if_neg (not_le.mpr hq), if_neg (not_lt.mpr hp)]
  rw [PortfolioManager.add_asset_step, hfind]
  refine ⟨_, _, rfl, Portfolio.find_modify_self hfind _, ?_, ?_, ?_⟩
  · intro b hb
    exact Portfolio.find_modify_ne _ _ _ _ hb
  · exact Portfolio.modify_map_fst _ _ _
  · intro v hv
    exact saveMemory_other _ _ _ _ hv

/-- Witness for C9: adding 3 more BTC at 100 to a store holding 2 BTC
bought at 30000. -/
theorem add_asset_frame_witness :
    ∃ s' p', PortfolioManager.add_asset "u" "BTC" 3 100
        (saveMemory emptyStore "u" [("BTC", ⟨2, [⟨2, 30000⟩], none⟩)]) =
          .ok (s', p') ∧
      p'.find "BTC" =
        some ⟨2 + round2 3, [⟨2, 30000⟩] ++ [⟨3, round2 100⟩], none⟩ := by
  obtain ⟨s', p', hrun, hfound, -, -, -⟩ :=
    add_asset_frame "u" "BTC" 3 100
      (saveMemory emptyStore "u" [("BTC", ⟨2, [⟨2, 30000⟩], none⟩)])
      ⟨2, [⟨2, 30000⟩], none⟩ (by decide) (by decide) (by norm_num)
      (by norm_num) (by simp [saveMemory, Portfolio.find])
  exact ⟨s', p', hrun, hfound⟩

/-- C7: `removeAsset` deletes the holding (including all its lots) and
persists when the asset is present, and is a no-op returning the unchanged
portfolio when the asset is absent; after `removeAsset`, `getPortfolio` for
the same user no longer contains that asset; `removeAsset` raises
`ValidationError` when userId or assetName is empty. -/
theorem remove_asset_spec (u a : String) (s : Store) :
    (isOk (PortfolioManager.remove_asset u a s) = true ↔ u ≠ "" ∧ a ≠ "") ∧
    (u ≠ "" → a ≠ "" →
      ((s u).find a = none → PortfolioManager.remove_asset u a s = .ok (s, s u)) ∧
      (∀ h₀, (s u).find a = some h₀ →
        PortfolioManager.remove_asset u a s =
          .ok (saveMemory s u ((s u).eraseKey a), (s u).eraseKey a)) ∧
      (∀ s' p', PortfolioManager.remove_asset u a s = .ok (s', p') →
        PortfolioManager.get_portfolio u s' = .ok (s' u) ∧
        (s' u).find a = none ∧ p'.find a = none)) := by
  constructor
  · rw [PortfolioManager.remove_asset]
    split_ifs with h1 h2
    · simp [isOk, h1]
    · simp [isOk, h2]
    · cases hfind : (s u).find a <;> simp [isOk, hfind, h1, h2]
  · intro h1 h2
    refine ⟨?_, ?_, ?_⟩
    · intro hfind
      rw [PortfolioManager.remove_asset, if_neg h1, if_neg h2, hfind]
    · intro h₀ hfind
      rw [PortfolioManager.remove_asset, if_neg h1, if_neg h2, hfind]
    · intro s' p' hrun
      rw [PortfolioManager.remove_asset, if_neg h1, if_neg h2] at hrun
      cases hfind : (s u).find a with
      | none =>
          rw [hfind] at hrun
          simp only [Except.ok.injEq, Prod.mk.injEq] at hrun
          obtain ⟨rfl, rfl⟩ := hrun
          exact ⟨by rw [PortfolioManager.get_portfolio, if_neg h1], hfind, hfind⟩
      | some h₀ =>
          rw [hfind] at hrun
          simp only [Except.ok.injEq, Prod.mk.injEq] at hrun
          obtain ⟨rfl, rfl⟩ := hrun
          refine ⟨by rw [PortfolioManager.get_portfolio, if_neg h1], ?_, ?_⟩
          · rw [saveMemory_same]
            exact Portfolio.find_eraseKey_self _ _
          · exact Portfolio.find_eraseKey_self _ _

/-- C6: for every holding, the valuation price used by the report/export path
is `current_price` when it is set, and otherwise the price of the most
recently added lot; the asset's value is quantity * valuationPrice rounded to
2 decimals.  In particular `current_price` is preferred over the last
purchase price whenever both are present. -/
theorem valuation_spec (a_name : String) (h : Holding) :
    (∀ cp, h.current_price = some cp →
      ExporterTool.valuationPrice h = some cp) ∧
    (h.current_price = none →
      ExporterTool.valuationPrice h =
        (h.purchase_prices.getLast?).map PurchaseLot.price) ∧
    (∀ price, ExporterTool.valuationPrice h = some price →
      ExporterTool.exportRow a_name h =
        some ⟨a_name, h.quantity, price, roundHalfEven2 (h.quantity * price)⟩ ∧
      TwoDecimal (roundHalfEven2 (h.quantity * price))) := by
  refine ⟨?_, ?_, ?_⟩
  · intro cp hcp
    rw [ExporterTool.valuationPrice, hcp]
  · intro hcp
    rw [ExporterTool.valuationPrice, hcp]
  · intro price hp
    constructor
    · rw [ExporterTool.exportRow, hp, Option.map_some']
    · exact roundHalfEven2_twoDecimal _

/-- C8: for every empty portfolio and non-empty userId, both the CSV export
and the PDF export return no file path (a "no result", not an error); for an
empty userId both raise `ValidationError` regardless of the portfolio. -/
theorem export_empty_spec (u : String) (p : Portfolio) :
    (u ≠ "" →
      ExporterTool.export_portfolio_csv u [] = .ok none ∧
      ExporterTool.export_portfolio_pdf u [] = .ok none) ∧
    (u = "" →
      ExporterTool.export_portfolio_csv u p =
        .error "User ID must be a non-empty string" ∧
      ExporterTool.export_portfolio_pdf u p =
        .error "User ID must be a non-empty string") := by
  constructor
  · intro hu
    constructor
    · simp [ExporterTool.export_portfolio_csv, hu]
    · simp [ExporterTool.export_portfolio_pdf, hu]
  · intro hu
    constructor
    · rw [ExporterTool.export_portfolio_csv, if_pos hu]
    · rw [ExporterTool.export_portfolio_pdf, if_pos hu]

/-- C10: the exporters quantize each asset's value with Decimal's default
rounding mode (round-half-even) rather than the round-half-up used by the
calculator and ledger; for every holding the exported value equals
quantity * price quantized half-even to 2 decimals, and for some
quantity/price inputs (here 2.5 units at 0.25) it differs from the half-up
rounding of the same product. -/
theorem export_half_even_spec (a_name : String) (h : Holding) :
    (∀ price, ExporterTool.valuationPrice h = some price →
      (ExporterTool.exportRow a_name h).map ExporterTool.CsvRow.value =
        some (roundHalfEven2 (h.quantity * price))) ∧
    (ExporterTool.exportRow "X" ⟨5/2, [⟨5/2, 1/4⟩], none⟩).map ExporterTool.CsvRow.value =
      some (62/100) ∧
    round2 ((5/2 : ℚ) * (1/4)) = 63/100 ∧
    roundHalfEven2 ((5/2 : ℚ) * (1/4)) ≠ round2 ((5/2 : ℚ) * (1/4)) := by
  refine ⟨?_, ?_, ?_, ?_⟩
  · intro price hp
    rw [ExporterTool.exportRow, hp, Option.map_some', Option.map_some']
  · rw [ExporterTool.exportRow, ExporterTool.valuationPrice]
    have h58 : (5/2 : ℚ) * (1/4) = 5/8 := by norm_num
    simp only [List.getLast?_singleton, Option.map_some', h58]
    norm_num [roundHalfEven2]
  · have h58 : (5/2 : ℚ) * (1/4) = 5/8 := by norm_num
    rw [h58]
    norm_num [round2]
  · have h58 : (5/2 : ℚ) * (1/4) = 5/8 := by norm_num
    rw [h58]
    norm_num [round2, roundHalfEven2]

/-- C1: for every portfolio, the portfolio ROI operation computes the initial
investment as the sum over all lots of lot.quantity * lot.price, the final
value as the sum over holdings of assetValue(holding), delegates the numeric
computation to `roi`, and fails with `ValidationError` when the initial
investment is non-positive (e.g. on an empty portfolio).  (The operation is
modelled from the spec, `calculate_portfolio_roi` being absent from the
source.) -/
theorem portfolio_roi_spec (p : Portfolio) (vals : List ℚ)
    (hvals : p.mapM (fun ah => Aggregator.assetValue ah.2) = some vals) :
    Aggregator.calculate_portfolio_roi p =
      CalculatorTool.calculate_roi (Aggregator.initialInvestment p) vals.sum ∧
    (Aggregator.initialInvestment p ≤ 0 →
      Aggregator.calculate_portfolio_roi p =
        .error "Initial investment must be positive") ∧
    Aggregator.calculate_portfolio_roi [] =
      .error "Initial investment must be positive" := by
  have hdel : Aggregator.calculate_portfolio_roi p =
      CalculatorTool.calculate_roi (Aggregator.initialInvestment p) vals.sum := by
    rw [Aggregator.calculate_portfolio_roi, hvals]
  refine ⟨hdel, ?_, ?_⟩
  · intro hle
    rw [hdel, CalculatorTool.calculate_roi, if_pos hle]
  · rfl

/-- Witness for C1: a portfolio holding 2 BTC bought at 30000 with current
price 32000. -/
theorem portfolio_roi_spec_witness :
    Aggregator.calculate_portfolio_roi [("BTC", ⟨2, [⟨2, 30000⟩], some 32000⟩)] =
      CalculatorTool.calculate_roi
        (Aggregator.initialInvestment [("BTC", ⟨2, [⟨2, 30000⟩], some 32000⟩)])
        [round2 (2 * 32000)].sum :=
  (portfolio_roi_spec [("BTC", ⟨2, [⟨2, 30000⟩], some 32000⟩)]
    [round2 (2 * 32000)] rfl).1

/-- Witness for C4 at (1000, 0.05, 2, 1). -/
theorem investment_simulation_spec_witness :
    CalculatorTool.investment_simulation 1000 (5/100) 2 1 =
      .ok [(0, 1000), (1, 1050), (2, 2205/2)] :=
  (investment_simulation_spec 1000 (5/100) 2 1 (by norm_num) (by norm_num)
    (by norm_num) (by norm_num)).2

end FinanceAgent
